import Mathlib

/-!
Shallow embedding of the chatbot in `src/main.py` (classes `FastScraper`,
`SmartAI`, `UniversalChatbot`) and proofs about the spec claims.

Python strings are modelled as `List Char`; the network, the HTML parser and
the Streamlit UI are external collaborators and appear only as inputs of the
model (the extracted page text, the generation-service responses).
-/

/-- The characters of a string literal, used to write concrete inputs. -/
def strChars (s : String) : List Char := s.data

/-- Python `str.lower()` (ASCII model, the corpus and questions are ASCII). -/
def lowerL (l : List Char) : List Char := l.map Char.toLower

/-- Python substring test `needle in hay` on strings. -/
def strContains (hay needle : List Char) : Bool :=
  hay.tails.any (fun t => needle.isPrefixOf t)

/-- Split a character list at every character satisfying `p`, keeping empty
segments, as Python `str.split(sep)` does. -/
def splitOnPred (p : Char → Bool) : List Char → List (List Char)
  | [] => [[]]
  | c :: rest =>
    if p c then [] :: splitOnPred p rest
    else
      match splitOnPred p rest with
      | [] => [[c]]
      | w :: ws => (c :: w) :: ws

/-- Python `str.split()` with no argument: split on whitespace runs and drop
empty segments. -/
def splitWs (l : List Char) : List (List Char) :=
  (splitOnPred Char.isWhitespace l).filter (fun w => !w.isEmpty)

/-- Python `str.strip()`: drop leading and trailing whitespace. -/
def stripL (l : List Char) : List Char :=
  ((l.dropWhile Char.isWhitespace).reverse.dropWhile Char.isWhitespace).reverse

/-- A successfully fetched page, `FastScraper.scrape_page`'s dict
`{"url": url, "content": content[:8000]}` (src/main.py lines 95-98). -/
structure Page where
  url : List Char
  content : List Char
deriving DecidableEq

/-- The success branch of `FastScraper.scrape_page` (src/main.py lines 85-98)
applied to the visible text extracted by the HTML parser (an external
collaborator): split into lines, keep stripped lines longer than 30
characters, join with a newline, truncate to 8000 characters. A fetch with
status 200 always reaches this branch, whatever the extracted text is. -/
def scrape_success (url raw : List Char) : Page :=
  let kept := (splitOnPred (fun c => c == '\n') raw).filterMap
      (fun line =>
        let s := stripL line
        if 30 < s.length then some s else none)
  { url := url, content := (List.intercalate ['\n'] kept).take 8000 }

/-- The mutable state of `SmartAI` (src/main.py lines 139-142), instrumented
with two counters: `invocations` counts entries into `SmartAI.call`,
`outbound` counts outbound HTTP requests actually issued. The cache dict is
an association list; a fresh digest is inserted at the head (lookups of
other keys are unaffected, as for the Python dict). -/
structure AIState where
  cache : List (List Char × List Char)
  outbound : Nat
  invocations : Nat
deriving DecidableEq

/-- The external world of `SmartAI.call`: whether `OPENROUTER_API_KEY` is
non-empty, the prompt digest (`hashlib.md5(...).hexdigest()`, an arbitrary
pure function of the prompt text), and the generation service, giving the
response to the n-th outbound request (`none` models a non-200 status). -/
structure Env where
  apiKey : Bool
  digest : List Char → List Char
  service : Nat → List Char → Option (List Char)

/-- Sentinel returned when `OPENROUTER_API_KEY` is empty (src/main.py 147). -/
def keyMissing : List Char := strChars "API key missing"

/-- Sentinel returned on a non-200 generation response (src/main.py 178). -/
def aiError : List Char := strChars "AI Error"

/-- The fixed fallback sentence of `UniversalChatbot.ask` (src/main.py 285):
"I couldn't find that information on our website." (apostrophe written as
its code point 39). -/
def notFound : List Char :=
  strChars "I couldn" ++ [Char.ofNat 39] ++
    strChars "t find that information on our website."

/-- Sentinel returned by `ask` when the bot is not ready (src/main.py 280). -/
def notReady : List Char := strChars "Bot not ready"

/-- `SmartAI.call` (src/main.py lines 144-184). -/
def smartAI_call (env : Env) (s : AIState) (prompt : List Char) :
    List Char × AIState :=
  let s1 : AIState := { s with invocations := s.invocations + 1 }
  if env.apiKey = false then (keyMissing, s1)
  else
    match List.lookup (env.digest prompt) s1.cache with
    | some a => (a, s1)
    | none =>
      match env.service s1.outbound prompt with
      | none => (aiError, { s1 with outbound := s1.outbound + 1 })
      | some ans =>
          (ans, { s1 with
                    outbound := s1.outbound + 1,
                    cache := (env.digest prompt, ans) :: s1.cache })

/-- The score loop of `UniversalChatbot.get_relevant_chunks`
(src/main.py lines 248-259): one point for every word of the lower-cased
question occurring as a substring of the lower-cased chunk. -/
def score (q c : List Char) : Nat :=
  (splitWs (lowerL q)).foldl
    (fun acc w => if strContains (lowerL c) w then acc + 1 else acc) 0

/-- A scored chunk, the pair `(score, chunk)` of src/main.py line 262. -/
abbrev Score := Nat × List Char

/-- Python `<` on strings (restricted to the pair comparison in
`scored.sort`): lexicographic comparison by code point. -/
def listLex : List Char → List Char → Bool
  | [], [] => false
  | [], _ :: _ => true
  | _ :: _, [] => false
  | a :: as, b :: bs =>
      if a = b then listLex as bs else decide (a.toNat < b.toNat)

/-- Python `<` on the `(score, chunk)` pairs: lexicographic on the tuple. -/
def tupleLt (x y : Score) : Bool :=
  decide (x.1 < y.1) || (decide (x.1 = y.1) && listLex x.2 y.2)

/-- The order realised by `scored.sort(reverse=True)` (src/main.py 264):
`x` may precede `y` when `x` is not tuple-smaller than `y`. -/
def rankLe (x y : Score) : Prop := tupleLt x y = false

instance : DecidableRel rankLe :=
  fun x y => inferInstanceAs (Decidable (tupleLt x y = false))

/-- The scored list built by the loop of src/main.py lines 252-262: chunks in
corpus order, keeping `(score, chunk)` exactly when the score is positive. -/
def scoredList (q : List Char) (chunks : List (List Char)) : List Score :=
  chunks.filterMap (fun c =>
    if 0 < score q c then some (score q c, c) else none)

/-- `scored.sort(reverse=True)` followed by `scored[:5]`
(src/main.py lines 264-266). Python `list.sort` is a stable sort for the
total order `rankLe`; since `rankLe` is antisymmetric on the pair values,
any sorted permutation is the same list of values, so a stable insertion
sort realises it exactly. -/
def bestScored (q : List Char) (chunks : List (List Char)) : List Score :=
  (List.insertionSort rankLe (scoredList q chunks)).take 5

/-- One page of `UniversalChatbot.create_chunks` (src/main.py lines 229-237):
consecutive windows `text[i:i+500]` for `i in range(0, len(text), 500)`. -/
def chunkPage (t : List Char) : List (List Char) :=
  if h : t = [] then []
  else t.take 500 :: chunkPage (t.drop 500)
termination_by t.length
decreasing_by
  have hpos : 0 < t.length := List.length_pos.mpr h
  simp only [List.length_drop]
  omega

/-- The session state of `UniversalChatbot` (src/main.py lines 191-204). -/
structure Session where
  company : List Char
  url : List Char
  pages : List Page
  chunks : List (List Char)
  ai : AIState
  ready : Bool

/-- `UniversalChatbot.create_chunks` (src/main.py lines 225-239). -/
def create_chunks (b : Session) : Session :=
  { b with chunks := (b.pages.map (fun p => chunkPage p.content)).flatten }

/-- `UniversalChatbot.initialize` (src/main.py lines 210-218); the scrape
result, which depends on the network, is the `pages` argument
(`scrape_website` collects exactly the successful fetches). -/
def initBot (pages : List Page) (b : Session) : Session :=
  let b1 := create_chunks { b with pages := pages }
  { b1 with ready := true }

/-- `UniversalChatbot.get_relevant_chunks` (src/main.py lines 246-270):
the context string `"\n\n".join([c[1] for c in best])`. -/
def get_relevant_chunks (b : Session) (q : List Char) : List Char :=
  List.intercalate (strChars "\n\n") ((bestScored q b.chunks).map Prod.snd)

/-- The f-string prompt template of `UniversalChatbot.ask`
(src/main.py lines 287-312). -/
def buildPrompt (company context question : List Char) : List Char :=
  strChars "\n\nYou are an official chatbot for " ++ company ++
  strChars ".\n\nCRITICAL RULES:\n\nAnswer ONLY using the website context below.\n\nDO NOT make up information.\n\nDO NOT guess.\n\nIf answer not present, say:\n" ++
  ['"'] ++ notFound ++ ['"'] ++
  strChars "\n\nWEBSITE CONTEXT:\n" ++ context ++
  strChars "\n\n\nQUESTION:\n" ++ question ++
  strChars "\n\n\nANSWER:\n\n"

/-- `UniversalChatbot.ask` (src/main.py lines 277-316). -/
def ask (env : Env) (b : Session) (q : List Char) : List Char × Session :=
  if b.ready = false then (notReady, b)
  else
    let context := get_relevant_chunks b q
    if context = [] then (notFound, b)
    else
      let res := smartAI_call env b.ai (buildPrompt b.company context q)
      (res.1, { b with ai := res.2 })

/-- The retrieval score as the words of the spec describe it (section 4.4):
a bonus of 10 when the entire lower-cased question is a substring of the
lower-cased chunk, plus 2 for every question word longer than 3 characters
that is a substring of the lower-cased chunk, occurrences counted. Written
for comparison with `score`, which is translated from the code. -/
def spec_score (q c : List Char) : Nat :=
  (if strContains (lowerL c) (lowerL q) then 10 else 0)
  + 2 * ((splitWs (lowerL q)).filter
      (fun w => decide (3 < w.length) && strContains (lowerL c) w)).length

/-- Boolean form of the order in which `bestScored` lists its pairs:
strictly larger score first, or equal scores and the tie broken by the
descending code-point order of the chunk text. -/
def rankOrdB (x y : Score) : Bool :=
  decide (y.1 < x.1) ||
    (decide (x.1 = y.1) && (listLex y.2 x.2 || decide (x.2 = y.2)))

/-- Adjacent-pairs check that a scored list is ordered by `rankOrdB`. -/
def chainDesc : List Score → Bool
  | x :: y :: rest => rankOrdB x y && chainDesc (y :: rest)
  | _ => true

/-- A fresh `SmartAI` state: empty cache, no calls made. -/
def ai0 : AIState := { cache := [], outbound := 0, invocations := 0 }

/-- Concrete environment: key present, service always answers "hi". -/
def env0 : Env :=
  { apiKey := true, digest := id,
    service := fun _ _ => some (strChars "hi") }

/-- Concrete environment: key present, service always non-200. -/
def envFail : Env :=
  { apiKey := true, digest := id, service := fun _ _ => none }

/-- Concrete environment with the credential absent. -/
def envNoKey : Env :=
  { apiKey := false, digest := id, service := fun _ _ => none }

/-- A freshly constructed bot (src/main.py lines 193-204). -/
def bot0 : Session :=
  { company := strChars "Acme", url := strChars "acme.com",
    pages := [], chunks := [], ai := ai0, ready := false }

/-- A ready bot whose corpus is one chunk that matches no test question. -/
def botHello : Session :=
  { company := strChars "Acme", url := strChars "acme.com",
    pages := [], chunks := [strChars "hello"], ai := ai0, ready := true }

/-- A concrete prompt used by witnesses. -/
def p0 : List Char := strChars "What do you sell?"

/-- A concrete page text used by witnesses. -/
def t0 : List Char := strChars "Acme sells anvils and rockets."

/-! ## Helper lemmas -/

/-- Characters with equal code points are equal. -/
theorem charToNat_inj {a b : Char} (h : a.toNat = b.toNat) : a = b := by
  have ha := Char.ofNat_toNat a
  have hb := Char.ofNat_toNat b
  rw [← ha, ← hb, h]

/-- `listLex` is irreflexive. -/
theorem listLex_irrefl : ∀ a, listLex a a = false
  | [] => rfl
  | _ :: as => by
      rw [listLex]
      simp [listLex_irrefl as]

/-- `listLex` is asymmetric. -/
theorem listLex_asymm : ∀ a b, listLex a b = true → listLex b a = false
  | [], [], h => by cases h
  | [], _ :: _, _ => rfl
  | _ :: _, [], h => by cases h
  | x :: xs, y :: ys, h => by
      rw [listLex] at h ⊢
      by_cases hxy : x = y
      · subst hxy
        simp only [if_pos rfl] at h ⊢
        exact listLex_asymm xs ys h
      · have hyx : ¬ y = x := fun hc => hxy hc.symm
        rw [if_neg hxy] at h
        rw [if_neg hyx]
        simp only [decide_eq_true_eq] at h
        simp only [decide_eq_false_iff_not]
        omega

/-- `listLex` is trichotomous. -/
theorem listLex_trichot : ∀ a b, listLex a b = true ∨ a = b ∨ listLex b a = true
  | [], [] => Or.inr (Or.inl rfl)
  | [], _ :: _ => Or.inl rfl
  | _ :: _, [] => Or.inr (Or.inr rfl)
  | x :: xs, y :: ys => by
      by_cases hxy : x = y
      · subst hxy
        rcases listLex_trichot xs ys with h | h | h
        · exact Or.inl (by rw [listLex, if_pos rfl]; exact h)
        · exact Or.inr (Or.inl (by rw [h]))
        · exact Or.inr (Or.inr (by rw [listLex, if_pos rfl]; exact h))
      · have hyx : ¬ y = x := fun hc => hxy hc.symm
        have hne : x.toNat ≠ y.toNat := fun hc => hxy (charToNat_inj hc)
        rcases Nat.lt_or_ge x.toNat y.toNat with h | h
        · exact Or.inl (by rw [listLex, if_neg hxy]; simpa using h)
        · have h2 : y.toNat < x.toNat := by omega
          exact Or.inr (Or.inr (by rw [listLex, if_neg hyx]; simpa using h2))

/-- `listLex` is transitive. -/
theorem listLex_trans : ∀ a b c,
    listLex a b = true → listLex b c = true → listLex a c = true
  | [], _, _ :: _, _, _ => rfl
  | [], b, [], _, h2 => by cases b <;> cases h2
  | _ :: _, b, [], h1, h2 => by
      cases b with
      | nil => cases h1
      | cons y ys => cases h2
  | x :: xs, b, z :: zs, h1, h2 => by
      cases b with
      | nil => cases h1
      | cons y ys =>
        rw [listLex] at h1 h2 ⊢
        by_cases hxy : x = y <;> by_cases hyz : y = z
        · subst hxy; subst hyz
          rw [if_pos rfl] at h1 h2 ⊢
          exact listLex_trans xs ys zs h1 h2
        · subst hxy
          rw [if_pos rfl] at h1
          rw [if_neg hyz] at h2 ⊢
          exact h2
        · subst hyz
          rw [if_neg hxy] at h1 ⊢
          exact h1
        · rw [if_neg hxy] at h1
          rw [if_neg hyz] at h2
          simp only [decide_eq_true_eq] at h1 h2
          have hxz : ¬ x = z := by
            intro hc
            subst hc
            omega
          rw [if_neg hxz]
          simp only [decide_eq_true_eq]
          omega

/-- `tupleLt` is asymmetric. -/
theorem tupleLt_asymm {x y : Score} (h : tupleLt x y = true) :
    tupleLt y x = false := by
  simp only [tupleLt, Bool.or_eq_true, Bool.and_eq_true, decide_eq_true_eq] at h
  simp only [tupleLt, Bool.or_eq_false_iff, Bool.and_eq_false_imp,
    decide_eq_false_iff_not, decide_eq_true_eq]
  rcases h with h | ⟨he, hl⟩
  · exact ⟨by omega, fun hc => by omega⟩
  · exact ⟨by omega, fun _ => listLex_asymm _ _ hl⟩

/-- `tupleLt` is trichotomous. -/
theorem tupleLt_trichot (x y : Score) :
    tupleLt x y = true ∨ x = y ∨ tupleLt y x = true := by
  rcases Nat.lt_trichotomy x.1 y.1 with h | h | h
  · exact Or.inl (by simp [tupleLt, h])
  · rcases listLex_trichot x.2 y.2 with hl | hl | hl
    · exact Or.inl (by simp [tupleLt, h, hl])
    · exact Or.inr (Or.inl (Prod.ext h hl))
    · exact Or.inr (Or.inr (by simp [tupleLt, h.symm, hl]))
  · exact Or.inr (Or.inr (by simp [tupleLt, h]))

/-- `tupleLt` is transitive. -/
theorem tupleLt_trans {x y z : Score}
    (h1 : tupleLt x y = true) (h2 : tupleLt y z = true) :
    tupleLt x z = true := by
  simp only [tupleLt, Bool.or_eq_true, Bool.and_eq_true, decide_eq_true_eq]
    at h1 h2 ⊢
  rcases h1 with h1 | ⟨he1, hl1⟩ <;> rcases h2 with h2 | ⟨he2, hl2⟩
  · exact Or.inl (by omega)
  · exact Or.inl (by omega)
  · exact Or.inl (by omega)
  · exact Or.inr ⟨by omega, listLex_trans _ _ _ hl1 hl2⟩

instance : IsTotal Score rankLe where
  total x y := by
    rcases ht : tupleLt x y with _ | _
    · exact Or.inl ht
    · exact Or.inr (tupleLt_asymm ht)

instance : IsTrans Score rankLe where
  trans x y z hxy hyz := by
    rcases ht : tupleLt x z with _ | _
    · exact ht
    · exfalso
      rcases tupleLt_trichot x y with h | h | h
      · rw [hxy] at h; cases h
      · subst h; rw [hyz] at ht; cases ht
      · have h2 : tupleLt y z = true := tupleLt_trans h ht
        rw [hyz] at h2; cases h2

/-- `rankLe` consecutive pairs satisfy the descending-order check. -/
theorem rankOrdB_of_rankLe {x y : Score} (h : rankLe x y) :
    rankOrdB x y = true := by
  unfold rankLe at h
  simp only [tupleLt, Bool.or_eq_false_iff, Bool.and_eq_false_imp,
    decide_eq_false_iff_not, decide_eq_true_eq] at h
  obtain ⟨hlt, himp⟩ := h
  simp only [rankOrdB, Bool.or_eq_true, Bool.and_eq_true, decide_eq_true_eq]
  by_cases he : x.1 = y.1
  · rcases listLex_trichot x.2 y.2 with hl | hl | hl
    · rw [himp he] at hl; cases hl
    · exact Or.inr ⟨he, Or.inr hl⟩
    · exact Or.inr ⟨he, Or.inl hl⟩
  · exact Or.inl (by omega)

/-- A `rankLe`-sorted list passes the adjacent-pairs descending check. -/
theorem chainDesc_of_sorted : ∀ l, List.Sorted rankLe l → chainDesc l = true
  | [], _ => rfl
  | [_], _ => rfl
  | x :: y :: t, h => by
      rw [List.sorted_cons] at h
      obtain ⟨hx, ht⟩ := h
      have hxy : rankLe x y := hx y (List.mem_cons_self y t)
      rw [chainDesc, Bool.and_eq_true]
      exact ⟨rankOrdB_of_rankLe hxy, chainDesc_of_sorted (y :: t) ht⟩

/-- Counting fold equals the length of the filtered list. -/
theorem count_foldl (p : List Char → Bool) (l : List (List Char)) :
    ∀ acc : Nat,
      l.foldl (fun a w => if p w then a + 1 else a) acc
        = acc + (l.filter p).length := by
  induction l with
  | nil => intro acc; simp
  | cons w ws ih =>
      intro acc
      by_cases h : p w = true
      · simp only [List.foldl_cons, if_pos h, ih, List.filter_cons, h, if_true,
          List.length_cons]
        omega
      · simp only [List.foldl_cons, if_neg h, ih, List.filter_cons, h,
          Bool.false_eq_true, if_false]

/-- If no chunk of the session scores positively, the context is empty. -/
theorem no_context_of_zero (b : Session) (q : List Char)
    (h : ∀ c ∈ b.chunks, score q c = 0) :
    get_relevant_chunks b q = [] := by
  have hs : scoredList q b.chunks = [] := by
    rw [scoredList, List.filterMap_eq_nil_iff]
    intro c hc
    rw [h c hc]
    rfl
  rw [get_relevant_chunks, bestScored, hs]
  rfl

/-- One `SmartAI.call` leaves the cache unchanged or conses one entry. -/
theorem smartAI_cache_shape (env : Env) (s : AIState) (p : List Char) :
    (smartAI_call env s p).2.cache = s.cache
    ∨ ((smartAI_call env s p).2.cache.tail = s.cache
       ∧ (smartAI_call env s p).2.cache.length = s.cache.length + 1) := by
  by_cases hk : env.apiKey = false
  · left; simp [smartAI_call, hk]
  · have hk' : env.apiKey = true := by revert hk; cases env.apiKey <;> simp
    rcases hl : List.lookup (env.digest p) s.cache with _ | a
    · rcases hs : env.service s.outbound p with _ | ans
      · left; simp [smartAI_call, hk', hl, hs]
      · right; simp [smartAI_call, hk', hl, hs]
    · left; simp [smartAI_call, hk', hl]

/-! ## Claim theorems -/

/-- Claim C1, counterexample: for the question "return policy" and the chunk
"Our return policy allows 30 days", the code computes score 2 (one point per
matching question word), while the score described by the claim (10 for the
whole question as a substring plus 2 per matching word longer than 3
characters) is 14. -/
theorem C1_counterexample :
    score (strChars "return policy")
        (strChars "Our return policy allows 30 days") = 2
    ∧ spec_score (strChars "return policy")
        (strChars "Our return policy allows 30 days") = 14
    ∧ (2 : Nat) ≠ 14 :=
  ⟨by decide, by decide, by decide⟩

/-- Claim C1 (amended): for every question and every chunk, the retrieval
score computed by `get_relevant_chunks` is one point - not two, with no
whole-question bonus and no length threshold - for each question word (each
occurrence in the lower-cased question counted, not deduplicated) that
appears as a substring of the lower-cased chunk. -/
theorem C1_scoring (q c : List Char) :
    score q c
      = ((splitWs (lowerL q)).filter
          (fun w => strContains (lowerL c) w)).length := by
  rw [score]
  simpa using count_foldl (fun w => strContains (lowerL c) w)
    (splitWs (lowerL q)) 0

/-- Claim C2, counterexample: for the question "dog" and the corpus
["a dog", "b dog"] both chunks score 1, yet the selection lists "b dog"
before "a dog": ties are not broken by original corpus order. -/
theorem C2_counterexample :
    bestScored (strChars "dog") [strChars "a dog", strChars "b dog"]
      = [(1, strChars "b dog"), (1, strChars "a dog")]
    ∧ [(1, strChars "b dog"), (1, strChars "a dog")]
      ≠ [(1, strChars "a dog"), (1, strChars "b dog")] :=
  ⟨by decide, by decide⟩

/-- Claim C2 (amended): the retrieval selection keeps at most 5 chunks, every
kept chunk has strictly positive score, and the selection is ordered by
non-increasing score with ties among equal scores broken by descending
code-point order of the chunk text (equal texts may also stand adjacent),
not by original corpus order. -/
theorem C2_selection (q : List Char) (chunks : List (List Char)) :
    (bestScored q chunks).length ≤ 5
    ∧ (bestScored q chunks).all (fun p => decide (0 < p.1)) = true
    ∧ chainDesc (bestScored q chunks) = true := by
  refine ⟨List.length_take_le 5 _, ?_, ?_⟩
  · rw [List.all_eq_true]
    intro p hp
    have hmem : p ∈ List.insertionSort rankLe (scoredList q chunks) :=
      List.mem_of_mem_take hp
    have hmem2 : p ∈ scoredList q chunks :=
      (List.perm_insertionSort rankLe _).mem_iff.mp hmem
    rw [scoredList, List.mem_filterMap] at hmem2
    obtain ⟨c, -, heq⟩ := hmem2
    by_cases h0 : 0 < score q c
    · rw [if_pos h0] at heq
      injection heq with h2
      subst h2
      simpa using h0
    · rw [if_neg h0] at heq
      cases heq
  · have hsorted : List.Sorted rankLe
        (List.insertionSort rankLe (scoredList q chunks)) :=
      List.sorted_insertionSort rankLe _
    have htake : List.Sorted rankLe (bestScored q chunks) :=
      List.Pairwise.sublist (List.take_sublist 5 _) hsorted
    exact chainDesc_of_sorted _ htake

/-- Claim C3, counterexample: with the credential present, an empty cache and
a generation service that answers with a non-200 status, two sequential
calls with the same prompt issue two outbound requests, not at most one. -/
theorem C3_counterexample :
    (smartAI_call envFail (smartAI_call envFail ai0 p0).2 p0).2.outbound = 2
    ∧ ¬ ((2 : Nat) ≤ 1) :=
  ⟨rfl, by decide⟩

/-- Claim C3 (amended): whenever the first of two sequential calls with the
same prompt does not return the error sentinel (the service answered, the
credential was missing, or the prompt was cached), the pair issues at most
one outbound request and the second call returns the first call's answer. -/
theorem C3_memoized (env : Env) (s : AIState) (p : List Char)
    (h : (smartAI_call env s p).1 ≠ aiError) :
    (smartAI_call env (smartAI_call env s p).2 p).2.outbound ≤ s.outbound + 1
    ∧ (smartAI_call env (smartAI_call env s p).2 p).1
        = (smartAI_call env s p).1 := by
  by_cases hk : env.apiKey = false
  · simp [smartAI_call, hk]
  · have hk' : env.apiKey = true := by revert hk; cases env.apiKey <;> simp
    rcases hl : List.lookup (env.digest p) s.cache with _ | a
    · rcases hs : env.service s.outbound p with _ | ans
      · exact absurd (by simp [smartAI_call, hk', hl, hs]) h
      · have h1 : smartAI_call env s p
            = (ans, { cache := (env.digest p, ans) :: s.cache,
                      outbound := s.outbound + 1,
                      invocations := s.invocations + 1 }) := by
          simp [smartAI_call, hk', hl, hs]
        rw [h1]
        simp [smartAI_call, hk', List.lookup]
    · have h1 : smartAI_call env s p
          = (a, { s with invocations := s.invocations + 1 }) := by
        simp [smartAI_call, hk', hl]
      rw [h1]
      simp [smartAI_call, hk', hl]

/-- Witness for C3 (amended) at a concrete input: fresh state, service
answering "hi". -/
theorem C3_memoized_witness :
    (smartAI_call env0 (smartAI_call env0 ai0 p0).2 p0).2.outbound
        ≤ ai0.outbound + 1
    ∧ (smartAI_call env0 (smartAI_call env0 ai0 p0).2 p0).1
        = (smartAI_call env0 ai0 p0).1 :=
  C3_memoized env0 ai0 p0 (by decide)

/-- Claim C4: the spec requires that initialization with zero successful
fetches leaves the session non-ready and explicitly failed; the code instead
marks the session ready and serves a subsequent ask through the normal
no-context path. Evaluation of the code at the failing input: after
`initialize` with zero fetched pages the ready flag is true and `ask`
answers with the not-found sentence rather than the not-ready sentinel. -/
theorem C4_empty_init_marked_ready :
    (initBot [] bot0).ready = true
    ∧ (ask env0 (initBot [] bot0) p0).1 = notFound
    ∧ (ask env0 (initBot [] bot0) p0).1 ≠ notReady :=
  ⟨rfl, rfl, by decide⟩

/-- Claim C5: for every ready session in which no chunk scores positively for
the question, `ask` returns exactly the fixed not-found sentence, leaves the
session unchanged, and never enters the generation layer (the invocation
counter of the `SmartAI` state is untouched). -/
theorem C5_refusal_without_generation (env : Env) (b : Session) (q : List Char)
    (hr : b.ready = true)
    (h : ∀ c ∈ b.chunks, score q c = 0) :
    (ask env b q).1 = notFound
    ∧ (ask env b q).2 = b
    ∧ (ask env b q).2.ai.invocations = b.ai.invocations := by
  have hctx := no_context_of_zero b q h
  rw [ask]
  rw [hr]
  simp [hctx]

/-- Witness for C5 at a concrete input: a ready session whose single chunk
"hello" does not match the question "zzz". -/
theorem C5_refusal_witness :
    (ask env0 botHello (strChars "zzz")).1 = notFound
    ∧ (ask env0 botHello (strChars "zzz")).2 = botHello
    ∧ (ask env0 botHello (strChars "zzz")).2.ai.invocations
        = botHello.ai.invocations :=
  C5_refusal_without_generation env0 botHello (strChars "zzz") rfl (by decide)

/-- Claim C6: the chunker partitions every page text into consecutive
non-overlapping windows of at most 500 characters; concatenating the chunks
of one page in order reproduces the text exactly, with no overlap and no
gaps. -/
theorem C6_chunker_partition (t : List Char) :
    (chunkPage t).flatten = t
    ∧ (chunkPage t).all (fun c => decide (c.length ≤ 500)) = true := by
  constructor
  · induction t using chunkPage.induct with
    | case1 => rw [chunkPage]; rfl
    | case2 t ht ih =>
        rw [chunkPage, dif_neg ht]
        simp only [List.flatten_cons, ih]
        exact List.take_append_drop 500 t
  · induction t using chunkPage.induct with
    | case1 => rw [chunkPage]; rfl
    | case2 t ht ih =>
        rw [chunkPage, dif_neg ht]
        simp only [List.all_cons, ih, Bool.and_true, decide_eq_true_eq]
        exact List.length_take_le 500 t

/-- Claim C7: with the credential present, a cache miss and a non-200
response, `SmartAI.call` returns the fixed error sentinel, stores nothing in
the cache, and a later call with the same prompt issues a new outbound
request (the outbound counter rises with both calls). -/
theorem C7_error_not_cached (env : Env) (s : AIState) (p : List Char)
    (hkey : env.apiKey = true)
    (hmiss : List.lookup (env.digest p) s.cache = none)
    (hsvc : env.service s.outbound p = none) :
    (smartAI_call env s p).1 = aiError
    ∧ (smartAI_call env s p).2.cache = s.cache
    ∧ (smartAI_call env s p).2.outbound = s.outbound + 1
    ∧ (smartAI_call env (smartAI_call env s p).2 p).2.outbound
        = s.outbound + 2 := by
  have h1 : smartAI_call env s p
      = (aiError, { cache := s.cache, outbound := s.outbound + 1,
                    invocations := s.invocations + 1 }) := by
    simp [smartAI_call, hkey, hmiss, hsvc]
  refine ⟨by rw [h1], by rw [h1], by rw [h1], ?_⟩
  rw [h1]
  rcases hs2 : env.service (s.outbound + 1) p with _ | a <;>
    simp [smartAI_call, hkey, hmiss, hs2]

/-- Witness for C7 at a concrete input: fresh state, service always
answering with a non-200 status. -/
theorem C7_error_witness :
    (smartAI_call envFail ai0 p0).1 = aiError
    ∧ (smartAI_call envFail ai0 p0).2.cache = ai0.cache
    ∧ (smartAI_call envFail ai0 p0).2.outbound = ai0.outbound + 1
    ∧ (smartAI_call envFail (smartAI_call envFail ai0 p0).2 p0).2.outbound
        = ai0.outbound + 2 :=
  C7_error_not_cached envFail ai0 p0 rfl rfl rfl

/-- Claim C8: whenever the generation credential is absent, `SmartAI.call`
returns the fixed key-missing sentinel, issues no outbound request, and
leaves the cache unchanged, whatever the cache contains. -/
theorem C8_key_missing (env : Env) (s : AIState) (p : List Char)
    (h : env.apiKey = false) :
    (smartAI_call env s p).1 = keyMissing
    ∧ (smartAI_call env s p).2.outbound = s.outbound
    ∧ (smartAI_call env s p).2.cache = s.cache := by
  simp [smartAI_call, h]

/-- Witness for C8 at a concrete input: credential absent, fresh state. -/
theorem C8_key_missing_witness :
    (smartAI_call envNoKey ai0 p0).1 = keyMissing
    ∧ (smartAI_call envNoKey ai0 p0).2.outbound = ai0.outbound
    ∧ (smartAI_call envNoKey ai0 p0).2.cache = ai0.cache :=
  C8_key_missing envNoKey ai0 p0 rfl

/-- A page produced by a successful fetch (status 200) of a page whose
extracted text has no line longer than 30 characters: its content is the
empty string. -/
def pageEmpty : Page :=
  scrape_success (strChars "https://acme.com") (strChars "hi")

/-- The session after initialization with that single successful fetch. -/
def sessEmpty : Session := initBot [pageEmpty] bot0

/-- Claim C9, counterexample: a page fetch can succeed with empty extracted
content (every line of the page is 30 characters or shorter), so a ready
session can have one successful fetch and an empty corpus. -/
theorem C9_counterexample :
    pageEmpty.content = []
    ∧ sessEmpty.ready = true
    ∧ sessEmpty.pages.length = 1
    ∧ sessEmpty.chunks = [] := by
  have hc : pageEmpty.content = [] := by decide
  have hz : chunkPage [] = [] := by rw [chunkPage]; rfl
  refine ⟨hc, rfl, rfl, ?_⟩
  show (initBot [pageEmpty] bot0).chunks = []
  rw [initBot, create_chunks]
  simp [hc, hz]

/-- Claim C9 (amended): if at least one page fetch succeeded with non-empty
extracted content, the session after initialization is ready and its corpus
is non-empty. -/
theorem C9_nonempty_corpus (pages : List Page) (b : Session)
    (h : ∃ p ∈ pages, p.content ≠ []) :
    (initBot pages b).ready = true ∧ (initBot pages b).chunks ≠ [] := by
  refine ⟨rfl, ?_⟩
  obtain ⟨p, hp, hne⟩ := h
  rw [initBot, create_chunks]
  intro hflat
  rw [List.flatten_eq_nil_iff] at hflat
  have hchunk : chunkPage p.content = [] :=
    hflat _ (List.mem_map_of_mem _ hp)
  rw [chunkPage, dif_neg hne] at hchunk
  cases hchunk

/-- A successful fetch with 30 characters of real text on one line. -/
def pageFull : Page := { url := strChars "https://acme.com", content := t0 }

/-- Witness for C9 (amended) at a concrete input. -/
theorem C9_nonempty_witness :
    (initBot [pageFull] bot0).ready = true
    ∧ (initBot [pageFull] bot0).chunks ≠ [] :=
  C9_nonempty_corpus [pageFull] bot0 ⟨pageFull, by decide, by decide⟩

/-- Claim C10: one `ask` call leaves the company name, URL, page list, chunk
corpus and ready flag unchanged; the only state it may modify is the
generation cache, which either stays unchanged or gains exactly one new
entry at the front, leaving every existing entry in place. -/
theorem C10_ask_frame (env : Env) (b : Session) (q : List Char) :
    (ask env b q).2.company = b.company
    ∧ (ask env b q).2.url = b.url
    ∧ (ask env b q).2.pages = b.pages
    ∧ (ask env b q).2.chunks = b.chunks
    ∧ (ask env b q).2.ready = b.ready
    ∧ ((ask env b q).2.ai.cache = b.ai.cache
       ∨ ((ask env b q).2.ai.cache.tail = b.ai.cache
          ∧ (ask env b q).2.ai.cache.length = b.ai.cache.length + 1)) := by
  by_cases hr : b.ready = false
  · simp [ask, hr]
  · by_cases hc : get_relevant_chunks b q = []
    · simp [ask, hr, hc]
    · have hask : ask env b q
          = ((smartAI_call env b.ai
                (buildPrompt b.company (get_relevant_chunks b q) q)).1,
             { b with ai := (smartAI_call env b.ai
                (buildPrompt b.company (get_relevant_chunks b q) q)).2 }) := by
        rw [ask, if_neg hr]
        simp only [if_neg hc]
      rw [hask]
      exact ⟨rfl, rfl, rfl, rfl, rfl, smartAI_cache_shape env b.ai _⟩
